import Mathlib

/-!
Shallow embedding of the png-secret chunk codec (src/chunk_type.rs and
src/chunk.rs).  Byte buffers are modelled as `List Nat` whose elements are
meant to be below 256 (the u8 range); 32-bit machine integers are modelled
as `Nat` with explicit reductions modulo 2 ^ 32 where the code casts.
-/

set_option maxRecDepth 2000

namespace PngSecret

/-- Decidable equality of parse results, used to evaluate the embedded
operations on concrete inputs. -/
instance {ε α : Type} [DecidableEq ε] [DecidableEq α] :
    DecidableEq (Except ε α) := fun a b =>
  match a, b with
  | .error e1, .error e2 => decidable_of_iff (e1 = e2) (by simp)
  | .error _, .ok _ => isFalse (fun h => by cases h)
  | .ok _, .error _ => isFalse (fun h => by cases h)
  | .ok a1, .ok a2 => decidable_of_iff (a1 = a2) (by simp)

/-- Models u8.is_ascii_alphabetic from the Rust standard library:
the byte is in the range of letter A to letter Z (65 to 90) or
letter a to letter z (97 to 122). -/
def is_valid_byte (b : Nat) : Bool :=
  decide ((65 ≤ b ∧ b ≤ 90) ∨ (97 ≤ b ∧ b ≤ 122))

/-- Error type ChunkTypeError from src/chunk_type.rs.  The String payload of
BadLength is modelled as the UTF-8 byte list of the string. -/
inductive ChunkTypeError where
  | BadByte (b : Nat)
  | BadLength (s : List Nat) (len : Nat)
deriving DecidableEq

/-- Struct ChunkType from src/chunk_type.rs.  The field data is the 4-byte
array, modelled as a list (well-formed values have length 4). -/
structure ChunkType where
  data : List Nat
deriving DecidableEq

/-- Accessor ChunkType.bytes. -/
def ChunkType.bytes (t : ChunkType) : List Nat := t.data

/-- Helper bit_is_zero from src/chunk_type.rs: mask = 1 shifted left by n,
and the test is whether the bitwise-and of the byte with the mask is zero. -/
def bit_is_zero (bit n : Nat) : Bool :=
  bit &&& (1 <<< n) == 0

/-- ChunkType.is_critical: bit 5 of byte 0 is zero. -/
def ChunkType.is_critical (t : ChunkType) : Bool :=
  bit_is_zero (t.bytes.getD 0 0) 5

/-- ChunkType.is_public: bit 5 of byte 1 is zero. -/
def ChunkType.is_public (t : ChunkType) : Bool :=
  bit_is_zero (t.bytes.getD 1 0) 5

/-- ChunkType.is_reserved_bit_valid: bit 5 of byte 2 is zero. -/
def ChunkType.is_reserved_bit_valid (t : ChunkType) : Bool :=
  bit_is_zero (t.bytes.getD 2 0) 5

/-- ChunkType.is_safe_to_copy: negation of the bit-5-is-zero test on byte 3. -/
def ChunkType.is_safe_to_copy (t : ChunkType) : Bool :=
  ! bit_is_zero (t.bytes.getD 3 0) 5

/-- ChunkType.is_valid: reserved bit valid and all four bytes alphabetic. -/
def ChunkType.is_valid (t : ChunkType) : Bool :=
  t.is_reserved_bit_valid
    && is_valid_byte (t.bytes.getD 0 0)
    && is_valid_byte (t.bytes.getD 1 0)
    && is_valid_byte (t.bytes.getD 2 0)
    && is_valid_byte (t.bytes.getD 3 0)

/-- Models the validation loop of TryFrom and FromStr in src/chunk_type.rs:
returns the first byte of the list that is not ASCII-alphabetic, if any. -/
def firstInvalidByte : List Nat → Option Nat
  | [] => none
  | b :: rest => if is_valid_byte b then firstInvalidByte rest else some b

/-- Models the impl TryFrom of a 4-byte array for ChunkType: the loop fails
with BadByte on the first non-alphabetic byte, otherwise the bytes are kept
unchanged. -/
def ChunkType.tryFrom (bytes : List Nat) : Except ChunkTypeError ChunkType :=
  match firstInvalidByte bytes with
  | some b => .error (.BadByte b)
  | none => .ok ⟨bytes⟩

/-- Models the impl FromStr for ChunkType: the input string is given by its
UTF-8 byte list; a length other than 4 fails with BadLength, otherwise each
byte is validated in order, failing with BadByte on the first invalid one,
and on success the ret buffer holds exactly the 4 input bytes. -/
def ChunkType.fromStr (s : List Nat) : Except ChunkTypeError ChunkType :=
  if s.length ≠ 4 then .error (.BadLength s s.length)
  else
    match firstInvalidByte s with
    | some b => .error (.BadByte b)
    | none => .ok ⟨s⟩

/-- Reflected polynomial of the CRC-32 ISO-HDLC variant used by the crc
crate constant CRC_32_ISO_HDLC. -/
def CRC32_POLY : Nat := 0xEDB88320

/-- One bit round of the reflected CRC-32 computation. -/
def crc32Round (c : Nat) : Nat :=
  if c % 2 == 1 then (c / 2) ^^^ CRC32_POLY else c / 2

/-- Iterated bit rounds. -/
def crc32Rounds : Nat → Nat → Nat
  | 0, c => c
  | n + 1, c => crc32Rounds n (crc32Round c)

/-- Folding one input byte into the CRC-32 state. -/
def crc32Byte (c b : Nat) : Nat := crc32Rounds 8 (c ^^^ b)

/-- Models crc::Crc::<u32>::new(&CRC_32_ISO_HDLC).checksum(data): reflected
CRC-32 with initial value 0xFFFFFFFF and final xor 0xFFFFFFFF (the ISO-HDLC
variant, algorithm parameters poly 0x04C11DB7 reflected, init 0xFFFFFFFF,
refin true, refout true, xorout 0xFFFFFFFF). -/
def crc32 (data : List Nat) : Nat :=
  (data.foldl crc32Byte 0xFFFFFFFF) ^^^ 0xFFFFFFFF

/-- Error type ChunkError from src/chunk.rs.  ReadError carries an io error
in Rust; the payload is irrelevant to control flow and is dropped here. -/
inductive ChunkError where
  | ReadError
  | MaxLengthError
  | InvalidChunkType (e : ChunkTypeError)
  | InvalidChunkData (actual expected : Nat)
  | InvalidCrc
deriving DecidableEq

/-- Struct Chunk from src/chunk.rs. -/
structure Chunk where
  length : Nat
  chunk_type : ChunkType
  chunk_data : List Nat
  crc : Nat
deriving DecidableEq

/-- The value u32::MAX. -/
def U32_MAX : Nat := 4294967295

/-- Chunk::new from src/chunk.rs: length is the data length cast to u32
(hence reduced modulo 2 ^ 32), and crc is the CRC-32 ISO-HDLC checksum of
the type-tag bytes followed by the data. -/
def Chunk.new (chunk_type : ChunkType) (chunk_data : List Nat) : Chunk :=
  { length := chunk_data.length % 4294967296
    chunk_type := chunk_type
    chunk_data := chunk_data
    crc := crc32 (chunk_type.bytes ++ chunk_data) }

/-- Big-endian byte decomposition of a u32 value, as in u32.to_be_bytes. -/
def u32BE (n : Nat) : List Nat :=
  [n / 16777216 % 256, n / 65536 % 256, n / 256 % 256, n % 256]

/-- Big-endian recomposition of 4 bytes into a u32, as in u32.from_be_bytes.
The catch-all branch is never reached by the parser, which always passes a
list of exactly 4 elements. -/
def u32FromBE (bs : List Nat) : Nat :=
  match bs with
  | [b0, b1, b2, b3] => b0 * 16777216 + b1 * 65536 + b2 * 256 + b3
  | _ => 0

/-- Chunk::as_bytes from src/chunk.rs: the iterator chain concatenating the
big-endian length, the type-tag bytes, the data, and the big-endian crc. -/
def Chunk.as_bytes (c : Chunk) : List Nat :=
  u32BE c.length ++ c.chunk_type.bytes ++ c.chunk_data ++ u32BE c.crc

/-- Models Read::read_exact on a BufReader over a byte slice with current
position pos: succeeds with the next n bytes exactly when n bytes remain. -/
def readExact (bytes : List Nat) (pos n : Nat) : Option (List Nat) :=
  if pos + n ≤ bytes.length then some ((bytes.drop pos).take n) else none

/-- Models the impl TryFrom of a byte slice for Chunk from src/chunk.rs:
read the big-endian length, check it against u32::MAX, read and validate the
4 type-tag bytes, read length bytes of payload, check the payload length,
read the big-endian provided crc, recompute the true crc and compare. -/
def Chunk.tryFrom (bytes : List Nat) : Except ChunkError Chunk :=
  match readExact bytes 0 4 with
  | none => .error .ReadError
  | some lengthBytes =>
    let length := u32FromBE lengthBytes
    if length > U32_MAX then .error .MaxLengthError
    else
      match readExact bytes 4 4 with
      | none => .error .ReadError
      | some typeBytes =>
        match ChunkType.tryFrom typeBytes with
        | .error e => .error (.InvalidChunkType e)
        | .ok chunk_type =>
          match readExact bytes 8 length with
          | none => .error .ReadError
          | some chunk_data =>
            if chunk_data.length ≠ length then
              .error (.InvalidChunkData chunk_data.length length)
            else
              match readExact bytes (8 + length) 4 with
              | none => .error .ReadError
              | some crcBytes =>
                let provided_crc := u32FromBE crcBytes
                let true_crc := crc32 (chunk_type.bytes ++ chunk_data)
                if provided_crc ≠ true_crc then .error .InvalidCrc
                else .ok { length := length, chunk_type := chunk_type,
                           chunk_data := chunk_data, crc := provided_crc }

/-! Basic facts about the embedded definitions. -/

lemma is_valid_byte_lt {b : Nat} (h : is_valid_byte b = true) : b < 256 := by
  simp only [is_valid_byte, decide_eq_true_eq] at h
  omega

lemma firstInvalidByte_eq_none {l : List Nat} :
    firstInvalidByte l = none ↔ ∀ b ∈ l, is_valid_byte b = true := by
  induction l with
  | nil => simp [firstInvalidByte]
  | cons b rest ih =>
    by_cases hb : is_valid_byte b = true
    · simp [firstInvalidByte, hb, ih]
    · simp only [firstInvalidByte, hb, if_false, Bool.false_eq_true, if_neg]
      constructor
      · intro h
        cases h
      · intro h
        exact absurd (h b (List.mem_cons_self _ _)) hb

lemma chunkTypeTryFrom_ok {l : List Nat} {t : ChunkType}
    (h : ChunkType.tryFrom l = .ok t) :
    t.data = l ∧ ∀ b ∈ l, is_valid_byte b = true := by
  unfold ChunkType.tryFrom at h
  cases hf : firstInvalidByte l with
  | none =>
    rw [hf] at h
    cases h
    exact ⟨rfl, firstInvalidByte_eq_none.mp hf⟩
  | some b =>
    rw [hf] at h
    cases h

lemma chunkTypeTryFrom_of_valid {l : List Nat}
    (h : ∀ b ∈ l, is_valid_byte b = true) :
    ChunkType.tryFrom l = .ok ⟨l⟩ := by
  unfold ChunkType.tryFrom
  rw [firstInvalidByte_eq_none.mpr h]

lemma u32BE_length (n : Nat) : (u32BE n).length = 4 := rfl

lemma mem_u32BE_lt {n b : Nat} (h : b ∈ u32BE n) : b < 256 := by
  simp only [u32BE, List.mem_cons, List.not_mem_nil, or_false] at h
  rcases h with h | h | h | h <;> subst h <;> omega

lemma u32FromBE_u32BE {n : Nat} (h : n < 4294967296) :
    u32FromBE (u32BE n) = n := by
  simp only [u32BE, u32FromBE]
  omega

lemma u32FromBE_lt {bs : List Nat} (hb : ∀ b ∈ bs, b < 256)
    (h4 : bs.length = 4) : u32FromBE bs < 4294967296 := by
  match bs with
  | [b0, b1, b2, b3] =>
    have h0 := hb b0 (by simp)
    have h1 := hb b1 (by simp)
    have h2 := hb b2 (by simp)
    have h3 := hb b3 (by simp)
    simp only [u32FromBE]
    omega

lemma crc32Round_lt {c : Nat} (h : c < 4294967296) :
    crc32Round c < 4294967296 := by
  have h32 : (4294967296 : Nat) = 2 ^ 32 := by norm_num
  unfold crc32Round
  split
  · rw [h32]
    exact Nat.xor_lt_two_pow (by omega) (by norm_num [CRC32_POLY])
  · omega

lemma crc32Rounds_lt {n c : Nat} (h : c < 4294967296) :
    crc32Rounds n c < 4294967296 := by
  induction n generalizing c with
  | zero => exact h
  | succ m ih => exact ih (crc32Round_lt h)

lemma crc32Byte_lt {c b : Nat} (hc : c < 4294967296) (hb : b < 4294967296) :
    crc32Byte c b < 4294967296 := by
  have h32 : (4294967296 : Nat) = 2 ^ 32 := by norm_num
  unfold crc32Byte
  exact crc32Rounds_lt (by rw [h32]; exact Nat.xor_lt_two_pow (by omega) (by omega))

lemma crc32_lt {d : List Nat} (hd : ∀ b ∈ d, b < 4294967296) :
    crc32 d < 4294967296 := by
  have h32 : (4294967296 : Nat) = 2 ^ 32 := by norm_num
  unfold crc32
  have hfold : ∀ (l : List Nat) (c : Nat), (∀ b ∈ l, b < 4294967296) →
      c < 4294967296 → l.foldl crc32Byte c < 4294967296 := by
    intro l
    induction l with
    | nil => intro c _ hc; exact hc
    | cons b rest ih =>
      intro c hl hc
      simp only [List.foldl_cons]
      exact ih _ (fun x hx => hl x (List.mem_cons_of_mem _ hx))
        (crc32Byte_lt hc (hl b (List.mem_cons_self _ _)))
  rw [h32]
  exact Nat.xor_lt_two_pow ((h32 ▸ hfold d _ hd (by norm_num))) (by norm_num)

/-- Complete arithmetic characterization of Chunk.tryFrom: the readExact
calls are replaced by explicit length conditions and take and drop
expressions, and the unreachable InvalidChunkData branch is eliminated. -/
lemma tryFrom_spec (bs : List Nat) :
    Chunk.tryFrom bs =
      if bs.length < 4 then .error .ReadError
      else if u32FromBE (bs.take 4) > U32_MAX then .error .MaxLengthError
      else if bs.length < 8 then .error .ReadError
      else
        match ChunkType.tryFrom ((bs.drop 4).take 4) with
        | .error e => .error (.InvalidChunkType e)
        | .ok t =>
          if bs.length < 8 + u32FromBE (bs.take 4) then .error .ReadError
          else if bs.length < 12 + u32FromBE (bs.take 4) then .error .ReadError
          else if u32FromBE ((bs.drop (8 + u32FromBE (bs.take 4))).take 4) ≠
                    crc32 (t.bytes ++ (bs.drop 8).take (u32FromBE (bs.take 4))) then
            .error .InvalidCrc
          else .ok { length := u32FromBE (bs.take 4), chunk_type := t,
                     chunk_data := (bs.drop 8).take (u32FromBE (bs.take 4)),
                     crc := u32FromBE ((bs.drop (8 + u32FromBE (bs.take 4))).take 4) } := by
  unfold Chunk.tryFrom readExact
  by_cases h4 : bs.length < 4
  · have hn : ¬ (0 + 4 ≤ bs.length) := by omega
    simp [hn, h4]
  · have hy : 0 + 4 ≤ bs.length := by omega
    by_cases hmax : u32FromBE (bs.take 4) > U32_MAX
    · simp [hy, h4, hmax]
    · by_cases h8 : bs.length < 8
      · have hn8 : ¬ (4 + 4 ≤ bs.length) := by omega
        simp [hy, h4, hmax, hn8, h8]
      · have hy8 : 4 + 4 ≤ bs.length := by omega
        cases htype : ChunkType.tryFrom ((bs.drop 4).take 4) with
        | error e => simp [hy, h4, hmax, hy8, h8, htype]
        | ok t =>
          by_cases hdata : bs.length < 8 + u32FromBE (bs.take 4)
          · have hnd : ¬ (8 + u32FromBE (bs.take 4) ≤ bs.length) := by omega
            simp [hy, h4, hmax, hy8, h8, htype, hnd, hdata]
          · have hyd : 8 + u32FromBE (bs.take 4) ≤ bs.length := by omega
            have hlen : (List.take (u32FromBE (List.take 4 bs)) (List.drop 8 bs)).length =
                u32FromBE (List.take 4 bs) := by
              simp only [List.length_take, List.length_drop]
              omega
            by_cases hcrc : bs.length < 12 + u32FromBE (bs.take 4)
            · have hnc : ¬ (8 + u32FromBE (bs.take 4) + 4 ≤ bs.length) := by omega
              simp [hy, h4, hmax, hy8, h8, htype, hyd, hdata, hlen, hnc, hcrc]
            · have hyc : 8 + u32FromBE (bs.take 4) + 4 ≤ bs.length := by omega
              by_cases heq : u32FromBE (List.take 4 (List.drop (8 + u32FromBE (List.take 4 bs)) bs)) =
                  crc32 (t.bytes ++ List.take (u32FromBE (List.take 4 bs)) (List.drop 8 bs))
              · simp [hy, h4, hmax, hy8, h8, htype, hyd, hdata, hlen, hyc, hcrc, heq]
              · simp [hy, h4, hmax, hy8, h8, htype, hyd, hdata, hlen, hyc, hcrc, heq]

lemma xor_two_pow_ne (a k : Nat) : a ^^^ 2 ^ k ≠ a := by
  intro h
  have hb := congrArg (fun n => Nat.testBit n k) h
  simp only [Nat.testBit_xor, Nat.testBit_two_pow_self] at hb
  cases hckk : Nat.testBit a k <;> simp [hckk] at hb

lemma bit_is_zero_iff {b n : Nat} :
    bit_is_zero b n = true ↔ Nat.testBit b n = false := by
  simp only [bit_is_zero, Nat.one_shiftLeft, beq_iff_eq, Nat.and_two_pow]
  cases h : Nat.testBit b n <;> simp [h, Nat.pow_eq_zero]

/-- Parsing a buffer of the serialized shape: the length prefix, a valid
4-byte tag, the payload, a 4-byte checksum field, and arbitrary trailing
bytes.  The result depends only on whether the checksum field matches the
recomputed CRC-32. -/
lemma tryFrom_serialized (t : ChunkType) (d extra : List Nat) (crcv : Nat)
    (ht4 : t.data.length = 4)
    (htv : ∀ b ∈ t.data, is_valid_byte b = true)
    (hd : d.length < 4294967296)
    (hcrc : crcv < 4294967296) :
    Chunk.tryFrom (u32BE d.length ++ t.data ++ d ++ u32BE crcv ++ extra) =
      if crcv ≠ crc32 (t.data ++ d) then .error .InvalidCrc
      else .ok ⟨d.length, t, d, crcv⟩ := by
  have hassoc : u32BE d.length ++ t.data ++ d ++ u32BE crcv ++ extra
      = u32BE d.length ++ (t.data ++ (d ++ (u32BE crcv ++ extra))) := by
    simp [List.append_assoc]
  rw [hassoc, tryFrom_spec]
  have hlen : (u32BE d.length ++ (t.data ++ (d ++ (u32BE crcv ++ extra)))).length
      = 12 + d.length + extra.length := by
    simp [List.length_append, u32BE_length, ht4]
    omega
  have htake4 : (u32BE d.length ++ (t.data ++ (d ++ (u32BE crcv ++ extra)))).take 4
      = u32BE d.length := List.take_left' (u32BE_length _)
  have hdrop4 : (u32BE d.length ++ (t.data ++ (d ++ (u32BE crcv ++ extra)))).drop 4
      = t.data ++ (d ++ (u32BE crcv ++ extra)) := List.drop_left' (u32BE_length _)
  have htype4 : ((u32BE d.length ++ (t.data ++ (d ++ (u32BE crcv ++ extra)))).drop 4).take 4
      = t.data := by
    rw [hdrop4]
    exact List.take_left' ht4
  have hdrop8 : (u32BE d.length ++ (t.data ++ (d ++ (u32BE crcv ++ extra)))).drop 8
      = d ++ (u32BE crcv ++ extra) := by
    have h8 : (8 : Nat) = 4 + 4 := rfl
    rw [h8, ← List.drop_drop, hdrop4]
    exact List.drop_left' ht4
  have hdata : ((u32BE d.length ++ (t.data ++ (d ++ (u32BE crcv ++ extra)))).drop 8).take d.length
      = d := by
    rw [hdrop8]
    exact List.take_left' rfl
  have hdropC : (u32BE d.length ++ (t.data ++ (d ++ (u32BE crcv ++ extra)))).drop (8 + d.length)
      = u32BE crcv ++ extra := by
    rw [← List.drop_drop, hdrop8]
    exact List.drop_left' rfl
  have hfrom : u32FromBE (u32BE d.length) = d.length := u32FromBE_u32BE hd
  have hfromC : u32FromBE (u32BE crcv) = crcv := u32FromBE_u32BE hcrc
  rw [htake4, hfrom, htype4, hdata]
  have hcrcBytes : ((u32BE d.length ++ (t.data ++ (d ++ (u32BE crcv ++ extra)))).drop (8 + d.length)).take 4
      = u32BE crcv := by
    rw [hdropC]
    exact List.take_left' (u32BE_length _)
  rw [hcrcBytes, hfromC, chunkTypeTryFrom_of_valid htv]
  have hT : (⟨t.data⟩ : ChunkType) = t := rfl
  have c1 : ¬ ((u32BE d.length ++ (t.data ++ (d ++ (u32BE crcv ++ extra)))).length < 4) := by
    omega
  have c2 : ¬ (d.length > U32_MAX) := by
    simp only [U32_MAX]
    omega
  have c3 : ¬ ((u32BE d.length ++ (t.data ++ (d ++ (u32BE crcv ++ extra)))).length < 8) := by
    omega
  have c4 : ¬ ((u32BE d.length ++ (t.data ++ (d ++ (u32BE crcv ++ extra)))).length
      < 8 + d.length) := by
    omega
  have c5 : ¬ ((u32BE d.length ++ (t.data ++ (d ++ (u32BE crcv ++ extra)))).length
      < 12 + d.length) := by
    omega
  simp only [c1, if_false, c2, c3, c4, c5, hT, ChunkType.bytes]

/-- Inversion for a successful parse: the fields of the result in terms of
the input buffer, and the CRC-32 invariant. -/
lemma tryFrom_ok_inversion {bs : List Nat} {c : Chunk}
    (h : Chunk.tryFrom bs = .ok c) :
    12 + u32FromBE (bs.take 4) ≤ bs.length ∧
    c.length = u32FromBE (bs.take 4) ∧
    c.chunk_type.data = (bs.drop 4).take 4 ∧
    (∀ b ∈ (bs.drop 4).take 4, is_valid_byte b = true) ∧
    c.chunk_data = (bs.drop 8).take (u32FromBE (bs.take 4)) ∧
    c.crc = u32FromBE ((bs.drop (8 + u32FromBE (bs.take 4))).take 4) ∧
    c.crc = crc32 (c.chunk_type.bytes ++ c.chunk_data) := by
  rw [tryFrom_spec] at h
  split at h
  · simp at h
  · split at h
    · simp at h
    · split at h
      · simp at h
      · split at h
        · simp at h
        · rename_i h4 hmax h8 t htype
          split at h
          · simp at h
          · split at h
            · simp at h
            · split at h
              · simp at h
              · rename_i hd8 hd12 hcrceq
                rw [Except.ok.injEq] at h
                subst h
                have hty := chunkTypeTryFrom_ok htype
                refine ⟨by omega, rfl, hty.1, hty.2, rfl, rfl, ?_⟩
                have := of_not_not hcrceq
                simpa [ChunkType.bytes] using this

/-- Inversion for an InvalidCrc failure: the buffer was long enough, the
type tag was valid, and the stored checksum disagrees with the recomputed
one. -/
lemma tryFrom_invalidCrc_inversion {bs : List Nat}
    (h : Chunk.tryFrom bs = .error .InvalidCrc) :
    12 + u32FromBE (bs.take 4) ≤ bs.length ∧
    (∀ b ∈ (bs.drop 4).take 4, is_valid_byte b = true) ∧
    u32FromBE ((bs.drop (8 + u32FromBE (bs.take 4))).take 4) ≠
      crc32 ((bs.drop 4).take 4 ++ (bs.drop 8).take (u32FromBE (bs.take 4))) := by
  rw [tryFrom_spec] at h
  split at h
  · simp at h
  · split at h
    · simp at h
    · split at h
      · simp at h
      · split at h
        · simp at h
        · rename_i h4 hmax h8 t htype
          split at h
          · simp at h
          · split at h
            · simp at h
            · split at h
              · rename_i hd8 hd12 hcrcne
                have hty := chunkTypeTryFrom_ok htype
                refine ⟨by omega, hty.2, ?_⟩
                have hbytes : ChunkType.bytes t = (bs.drop 4).take 4 := hty.1
                rw [← hbytes]
                exact hcrcne
              · simp at h

/-- The parser only ever produces a read failure, an invalid-type failure,
a checksum failure, or a successful chunk. -/
lemma tryFrom_no_unreachable (bs : List Nat) (hb : ∀ b ∈ bs, b < 256) :
    Chunk.tryFrom bs = .error .ReadError ∨
    (∃ e, Chunk.tryFrom bs = .error (.InvalidChunkType e)) ∨
    Chunk.tryFrom bs = .error .InvalidCrc ∨
    (∃ c, Chunk.tryFrom bs = .ok c) := by
  rw [tryFrom_spec]
  by_cases h4 : bs.length < 4
  · simp [h4]
  · have htk : (bs.take 4).length = 4 := by
      simp only [List.length_take]
      omega
    have hmax : ¬ (u32FromBE (bs.take 4) > U32_MAX) := by
      have := u32FromBE_lt (fun b hbm => hb b (List.take_subset 4 bs hbm)) htk
      simp only [U32_MAX]
      omega
    simp only [if_neg h4, if_neg hmax]
    by_cases h8 : bs.length < 8
    · simp [h8]
    · simp only [if_neg h8]
      cases htype : ChunkType.tryFrom ((bs.drop 4).take 4) with
      | error e => simp
      | ok t =>
        simp only
        by_cases hd : bs.length < 8 + u32FromBE (bs.take 4)
        · simp [hd]
        · simp only [if_neg hd]
          by_cases hc : bs.length < 12 + u32FromBE (bs.take 4)
          · simp [hc]
          · simp only [if_neg hc]
            split
            · simp
            · simp

/-- The UTF-8 bytes of the 42-byte ASCII fixture message used by the tests
in src/chunk.rs. -/
def secretMessage : List Nat :=
  [84, 104, 105, 115, 32, 105, 115, 32, 119, 104, 101, 114, 101, 32, 121,
   111, 117, 114, 32, 115, 101, 99, 114, 101, 116, 32, 109, 101, 115, 115,
   97, 103, 101, 32, 119, 105, 108, 108, 32, 98, 101, 33]

/-- A small concrete chunk used as a witness input. -/
def sampleChunk : Chunk := ⟨0, ⟨[65, 66, 67, 68]⟩, [], 0⟩

/-- Stepwise evaluation of the CRC-32 fold over the fixture bytes (tag
RuSt followed by the message), one input byte per step. -/
lemma crc32_fixture_fold :
    List.foldl crc32Byte 4294967295
      [82, 117, 83, 116, 84, 104, 105, 115, 32, 105, 115, 32, 119, 104,
       101, 114, 101, 32, 121, 111, 117, 114, 32, 115, 101, 99, 114, 101,
       116, 32, 109, 101, 115, 115, 97, 103, 101, 32, 119, 105, 108, 108,
       32, 98, 101, 33] = 1412310961 := by
  have h1 : crc32Byte 4294967295 82 = 2828542122 := by decide
  have h2 : crc32Byte 2828542122 117 = 381966181 := by decide
  have h3 : crc32Byte 381966181 83 = 3484176846 := by decide
  have h4 : crc32Byte 3484176846 116 = 729544387 := by decide
  have h5 : crc32Byte 729544387 84 = 1849720081 := by decide
  have h6 : crc32Byte 1849720081 104 = 699894245 := by decide
  have h7 : crc32Byte 699894245 105 = 3827792002 := by decide
  have h8 : crc32Byte 3827792002 115 = 3395216882 := by decide
  have h9 : crc32Byte 3395216882 32 = 1746398493 := by decide
  have h10 : crc32Byte 1746398493 105 = 1459659464 := by decide
  have h11 : crc32Byte 1459659464 115 = 1558473382 := by decide
  have h12 : crc32Byte 1558473382 32 = 76006015 := by decide
  have h13 : crc32Byte 76006015 119 = 249499632 := by decide
  have h14 : crc32Byte 249499632 104 = 4275750009 := by decide
  have h15 : crc32Byte 4275750009 101 = 352290443 := by decide
  have h16 : crc32Byte 352290443 114 = 3296048446 := by decide
  have h17 : crc32Byte 3296048446 101 = 4236115401 := by decide
  have h18 : crc32Byte 4236115401 32 = 3643418401 := by decide
  have h19 : crc32Byte 3643418401 121 = 1701442529 := by decide
  have h20 : crc32Byte 1701442529 111 = 174442452 := by decide
  have h21 : crc32Byte 174442452 117 = 2715547321 := by decide
  have h22 : crc32Byte 2715547321 114 = 202883278 := by decide
  have h23 : crc32Byte 202883278 32 = 1203689663 := by decide
  have h24 : crc32Byte 1203689663 115 = 2459250755 := by decide
  have h25 : crc32Byte 2459250755 101 = 3533639885 := by decide
  have h26 : crc32Byte 3533639885 99 = 834408959 := by decide
  have h27 : crc32Byte 834408959 114 = 2469938060 := by decide
  have h28 : crc32Byte 2469938060 101 = 3645203103 := by decide
  have h29 : crc32Byte 3645203103 116 = 922844818 := by decide
  have h30 : crc32Byte 922844818 32 = 626578398 := by decide
  have h31 : crc32Byte 626578398 109 = 1380825829 := by decide
  have h32 : crc32Byte 1380825829 101 = 3991588506 := by decide
  have h33 : crc32Byte 3991588506 115 = 3644567570 := by decide
  have h34 : crc32Byte 3644567570 115 = 980183678 := by decide
  have h35 : crc32Byte 980183678 97 = 2368889247 := by decide
  have h36 : crc32Byte 2368889247 103 = 3018541135 := by decide
  have h37 : crc32Byte 3018541135 101 = 3674743454 := by decide
  have h38 : crc32Byte 3674743454 32 = 738367145 := by decide
  have h39 : crc32Byte 738367145 119 = 1632107845 := by decide
  have h40 : crc32Byte 1632107845 105 = 850995998 := by decide
  have h41 : crc32Byte 850995998 108 = 3191449915 := by decide
  have h42 : crc32Byte 3191449915 108 = 4122082814 := by decide
  have h43 : crc32Byte 4122082814 32 = 1637764654 := by decide
  have h44 : crc32Byte 1637764654 98 = 2131465205 := by decide
  have h45 : crc32Byte 2131465205 101 = 4033910999 := by decide
  have h46 : crc32Byte 4033910999 33 = 1412310961 := by decide
  rw [List.foldl_cons, h1, List.foldl_cons, h2, List.foldl_cons, h3, List.foldl_cons, h4, List.foldl_cons, h5, List.foldl_cons, h6, List.foldl_cons, h7, List.foldl_cons, h8, List.foldl_cons, h9, List.foldl_cons, h10, List.foldl_cons, h11, List.foldl_cons, h12, List.foldl_cons, h13, List.foldl_cons, h14, List.foldl_cons, h15, List.foldl_cons, h16, List.foldl_cons, h17, List.foldl_cons, h18, List.foldl_cons, h19, List.foldl_cons, h20, List.foldl_cons, h21, List.foldl_cons, h22, List.foldl_cons, h23, List.foldl_cons, h24, List.foldl_cons, h25, List.foldl_cons, h26, List.foldl_cons, h27, List.foldl_cons, h28, List.foldl_cons, h29, List.foldl_cons, h30, List.foldl_cons, h31, List.foldl_cons, h32, List.foldl_cons, h33, List.foldl_cons, h34, List.foldl_cons, h35, List.foldl_cons, h36, List.foldl_cons, h37, List.foldl_cons, h38, List.foldl_cons, h39, List.foldl_cons, h40, List.foldl_cons, h41, List.foldl_cons, h42, List.foldl_cons, h43, List.foldl_cons, h44, List.foldl_cons, h45, List.foldl_cons, h46, List.foldl_nil]

/-- The CRC-32 ISO-HDLC checksum of the fixture tag and message. -/
lemma crc32_fixture : crc32 ([82, 117, 83, 116] ++ secretMessage) = 2882656334 := by
  have happ : ([82, 117, 83, 116] : List Nat) ++ secretMessage
      = [82, 117, 83, 116, 84, 104, 105, 115, 32, 105, 115, 32, 119, 104,
         101, 114, 101, 32, 121, 111, 117, 114, 32, 115, 101, 99, 114, 101,
         116, 32, 109, 101, 115, 115, 97, 103, 101, 32, 119, 105, 108, 108,
         32, 98, 101, 33] := by decide
  unfold crc32
  rw [happ, crc32_fixture_fold]
  decide

/-- C9: constructing a Chunk with tag RuSt (bytes 82, 117, 83, 116) and the
ASCII payload of the fixture message yields length 42 and crc 2882656334,
the CRC-32 ISO-HDLC checksum over the tag bytes followed by the payload. -/
theorem C9_concrete_fixture :
    ChunkType.fromStr [82, 117, 83, 116] = .ok ⟨[82, 117, 83, 116]⟩ ∧
    secretMessage.length = 42 ∧
    (Chunk.new ⟨[82, 117, 83, 116]⟩ secretMessage).length = 42 ∧
    (Chunk.new ⟨[82, 117, 83, 116]⟩ secretMessage).crc = 2882656334 ∧
    crc32 ([82, 117, 83, 116] ++ secretMessage) = 2882656334 := by
  refine ⟨by decide, by decide, by decide, ?_, crc32_fixture⟩
  show crc32 (ChunkType.bytes ⟨[82, 117, 83, 116]⟩ ++ secretMessage) = 2882656334
  exact crc32_fixture

/-- C4: for every Chunk whose type tag is well formed (4 bytes), as_bytes is
exactly the big-endian length, the tag bytes, the data verbatim, and the
big-endian crc; its total length is 12 plus the data length, and each field
occupies its expected position. -/
theorem C4_serialize_layout (c : Chunk) (h4 : c.chunk_type.data.length = 4) :
    c.as_bytes = [c.length / 16777216 % 256, c.length / 65536 % 256,
        c.length / 256 % 256, c.length % 256]
      ++ c.chunk_type.bytes ++ c.chunk_data
      ++ [c.crc / 16777216 % 256, c.crc / 65536 % 256,
        c.crc / 256 % 256, c.crc % 256] ∧
    c.as_bytes.length = 12 + c.chunk_data.length ∧
    c.as_bytes.take 4 = u32BE c.length ∧
    (c.as_bytes.drop 4).take 4 = c.chunk_type.bytes ∧
    (c.as_bytes.drop 8).take c.chunk_data.length = c.chunk_data ∧
    c.as_bytes.drop (8 + c.chunk_data.length) = u32BE c.crc := by
  have hb4 : c.chunk_type.bytes.length = 4 := h4
  have he : c.as_bytes
      = u32BE c.length ++ (c.chunk_type.bytes ++ (c.chunk_data ++ u32BE c.crc)) := by
    simp [Chunk.as_bytes, List.append_assoc]
  have hdrop4 : c.as_bytes.drop 4 = c.chunk_type.bytes ++ (c.chunk_data ++ u32BE c.crc) := by
    rw [he]
    exact List.drop_left' (u32BE_length _)
  have hdrop8 : c.as_bytes.drop 8 = c.chunk_data ++ u32BE c.crc := by
    have h8 : (8 : Nat) = 4 + 4 := rfl
    rw [h8, ← List.drop_drop, hdrop4]
    exact List.drop_left' hb4
  refine ⟨rfl, ?_, ?_, ?_, ?_, ?_⟩
  · rw [he]
    simp [List.length_append, u32BE, hb4]
    omega
  · rw [he]
    exact List.take_left' (u32BE_length _)
  · rw [hdrop4]
    exact List.take_left' hb4
  · rw [hdrop8]
    exact List.take_left' rfl
  · rw [← List.drop_drop, hdrop8]
    exact List.drop_left' rfl

/-- Witness for C4 at a concrete chunk. -/
theorem C4_serialize_layout_witness :
    sampleChunk.as_bytes = [sampleChunk.length / 16777216 % 256,
        sampleChunk.length / 65536 % 256,
        sampleChunk.length / 256 % 256, sampleChunk.length % 256]
      ++ sampleChunk.chunk_type.bytes ++ sampleChunk.chunk_data
      ++ [sampleChunk.crc / 16777216 % 256, sampleChunk.crc / 65536 % 256,
        sampleChunk.crc / 256 % 256, sampleChunk.crc % 256] ∧
    sampleChunk.as_bytes.length = 12 + sampleChunk.chunk_data.length ∧
    sampleChunk.as_bytes.take 4 = u32BE sampleChunk.length ∧
    (sampleChunk.as_bytes.drop 4).take 4 = sampleChunk.chunk_type.bytes ∧
    (sampleChunk.as_bytes.drop 8).take sampleChunk.chunk_data.length
      = sampleChunk.chunk_data ∧
    sampleChunk.as_bytes.drop (8 + sampleChunk.chunk_data.length)
      = u32BE sampleChunk.crc :=
  C4_serialize_layout sampleChunk (by decide)

/-- C5: TypeTag construction succeeds on 4 bytes exactly when all are
ASCII-alphabetic, keeping the bytes unchanged; otherwise the first invalid
byte is reported via BadByte.  A string source of byte length other than 4
fails with BadLength, and a 4-byte string follows the same per-byte rule. -/
theorem C5_typetag_errors (b0 b1 b2 b3 : Nat) (s : List Nat) :
    (ChunkType.tryFrom [b0, b1, b2, b3] = .ok ⟨[b0, b1, b2, b3]⟩ ↔
      (is_valid_byte b0 = true ∧ is_valid_byte b1 = true ∧
       is_valid_byte b2 = true ∧ is_valid_byte b3 = true)) ∧
    (is_valid_byte b0 = false →
      ChunkType.tryFrom [b0, b1, b2, b3] = .error (.BadByte b0)) ∧
    (is_valid_byte b0 = true → is_valid_byte b1 = false →
      ChunkType.tryFrom [b0, b1, b2, b3] = .error (.BadByte b1)) ∧
    (is_valid_byte b0 = true → is_valid_byte b1 = true →
      is_valid_byte b2 = false →
      ChunkType.tryFrom [b0, b1, b2, b3] = .error (.BadByte b2)) ∧
    (is_valid_byte b0 = true → is_valid_byte b1 = true →
      is_valid_byte b2 = true → is_valid_byte b3 = false →
      ChunkType.tryFrom [b0, b1, b2, b3] = .error (.BadByte b3)) ∧
    (s.length ≠ 4 → ChunkType.fromStr s = .error (.BadLength s s.length)) ∧
    ChunkType.fromStr [b0, b1, b2, b3] = ChunkType.tryFrom [b0, b1, b2, b3] := by
  refine ⟨⟨?_, ?_⟩, ?_, ?_, ?_, ?_, ?_, ?_⟩
  · intro h
    have hv := (chunkTypeTryFrom_ok h).2
    exact ⟨hv b0 (by simp), hv b1 (by simp), hv b2 (by simp), hv b3 (by simp)⟩
  · rintro ⟨h0, h1, h2, h3⟩
    apply chunkTypeTryFrom_of_valid
    intro b hb
    simp only [List.mem_cons, List.not_mem_nil, or_false] at hb
    rcases hb with h | h | h | h <;> subst h <;> assumption
  · intro h0
    simp [ChunkType.tryFrom, firstInvalidByte, h0]
  · intro h0 h1
    simp [ChunkType.tryFrom, firstInvalidByte, h0, h1]
  · intro h0 h1 h2
    simp [ChunkType.tryFrom, firstInvalidByte, h0, h1, h2]
  · intro h0 h1 h2 h3
    simp [ChunkType.tryFrom, firstInvalidByte, h0, h1, h2, h3]
  · intro hlen
    simp [ChunkType.fromStr, hlen]
  · simp [ChunkType.fromStr, ChunkType.tryFrom]

/-- Witness for C5: a 3-byte string source fails with BadLength 3. -/
theorem C5_typetag_errors_witness :
    ChunkType.fromStr [65, 66, 67] = .error (.BadLength [65, 66, 67] 3) :=
  (C5_typetag_errors 82 117 83 116 [65, 66, 67]).2.2.2.2.2.1 (by decide)

/-- C6: the flag predicates test bit 5 of bytes 0 to 3 (with inverted
polarity for is_safe_to_copy), is_valid requires the reserved bit and all
four bytes alphabetic, the tag Rust is constructible yet invalid, and the
tag RuSt has the expected four flags. -/
theorem C6_flag_predicates :
    (∀ t : ChunkType,
      (t.is_critical = true ↔ Nat.testBit (t.bytes.getD 0 0) 5 = false) ∧
      (t.is_public = true ↔ Nat.testBit (t.bytes.getD 1 0) 5 = false) ∧
      (t.is_reserved_bit_valid = true ↔ Nat.testBit (t.bytes.getD 2 0) 5 = false) ∧
      (t.is_safe_to_copy = true ↔ Nat.testBit (t.bytes.getD 3 0) 5 = true) ∧
      (t.is_valid = true ↔ (t.is_reserved_bit_valid = true ∧
        ∀ i < 4, is_valid_byte (t.bytes.getD i 0) = true))) ∧
    (ChunkType.fromStr [82, 117, 115, 116] = .ok ⟨[82, 117, 115, 116]⟩ ∧
     ChunkType.is_valid ⟨[82, 117, 115, 116]⟩ = false) ∧
    (ChunkType.is_critical ⟨[82, 117, 83, 116]⟩ = true ∧
     ChunkType.is_public ⟨[82, 117, 83, 116]⟩ = false ∧
     ChunkType.is_reserved_bit_valid ⟨[82, 117, 83, 116]⟩ = true ∧
     ChunkType.is_safe_to_copy ⟨[82, 117, 83, 116]⟩ = true) := by
  refine ⟨?_, by refine ⟨by decide, by decide⟩, by refine ⟨by decide, by decide, by decide, by decide⟩⟩
  intro t
  refine ⟨bit_is_zero_iff, bit_is_zero_iff, bit_is_zero_iff, ?_, ?_⟩
  · have hsc := @bit_is_zero_iff (t.bytes.getD 3 0) 5
    cases hb : bit_is_zero (t.bytes.getD 3 0) 5 <;>
      simp [hb] at hsc <;>
      simp [ChunkType.is_safe_to_copy, hb, hsc]
  · constructor
    · intro hv
      simp only [ChunkType.is_valid, Bool.and_eq_true] at hv
      obtain ⟨⟨⟨⟨hr, h0⟩, h1⟩, h2⟩, h3⟩ := hv
      refine ⟨hr, ?_⟩
      intro i hi
      interval_cases i <;> assumption
    · rintro ⟨hr, hall⟩
      simp only [ChunkType.is_valid, Bool.and_eq_true]
      exact ⟨⟨⟨⟨hr, hall 0 (by omega)⟩, hall 1 (by omega)⟩,
        hall 2 (by omega)⟩, hall 3 (by omega)⟩

/-- Witness for C6: the is_valid characterization applied to the RuSt tag. -/
theorem C6_flag_predicates_witness :
    ChunkType.is_valid ⟨[82, 117, 83, 116]⟩ = true :=
  ((C6_flag_predicates.1 ⟨[82, 117, 83, 116]⟩).2.2.2.2).mpr ⟨by decide, by decide⟩

/-- C8: the parser never fails with MaxLengthError or InvalidChunkData on
any buffer of bytes. -/
theorem C8_defensive_guards (bs : List Nat) (hb : ∀ b ∈ bs, b < 256) :
    Chunk.tryFrom bs ≠ .error .MaxLengthError ∧
    ∀ a e, Chunk.tryFrom bs ≠ .error (.InvalidChunkData a e) := by
  rcases tryFrom_no_unreachable bs hb with h | ⟨e, h⟩ | h | ⟨c, h⟩ <;>
    exact ⟨by simp [h], fun a e2 => by simp [h]⟩

/-- Witness for C8 at a concrete short buffer. -/
theorem C8_defensive_guards_witness :
    Chunk.tryFrom [1, 2, 3] ≠ .error .MaxLengthError ∧
    ∀ a e, Chunk.tryFrom [1, 2, 3] ≠ .error (.InvalidChunkData a e) :=
  C8_defensive_guards [1, 2, 3] (by decide)

/-- C10: when the data length exceeds u32::MAX, Chunk::new still succeeds
but stores the length reduced modulo 2 ^ 32, so the stored length and the
serialized length prefix no longer equal the true data length. -/
theorem C10_length_overflow (t : ChunkType) (d : List Nat)
    (hd : d.length > U32_MAX) :
    (Chunk.new t d).length = d.length % 4294967296 ∧
    (Chunk.new t d).length ≠ d.length ∧
    u32FromBE ((Chunk.new t d).as_bytes.take 4) = d.length % 4294967296 := by
  simp only [U32_MAX] at hd
  refine ⟨rfl, ?_, ?_⟩
  · simp only [Chunk.new]
    omega
  · have he : (Chunk.new t d).as_bytes
        = u32BE ((Chunk.new t d).length)
          ++ ((Chunk.new t d).chunk_type.bytes
            ++ ((Chunk.new t d).chunk_data ++ u32BE ((Chunk.new t d).crc))) := by
      simp [Chunk.as_bytes, List.append_assoc]
    have htk : (Chunk.new t d).as_bytes.take 4 = u32BE ((Chunk.new t d).length) := by
      rw [he]
      exact List.take_left' (u32BE_length _)
    rw [htk]
    have hlt : (Chunk.new t d).length < 4294967296 := by
      simp only [Chunk.new]
      omega
    rw [u32FromBE_u32BE hlt]
    rfl

/-- Witness for C10 on a data list exceeding the 32-bit range. -/
theorem C10_length_overflow_witness :
    (Chunk.new ⟨[82, 117, 83, 116]⟩ (List.replicate 4294967296 0)).length
      = (List.replicate 4294967296 0 : List Nat).length % 4294967296 ∧
    (Chunk.new ⟨[82, 117, 83, 116]⟩ (List.replicate 4294967296 0)).length
      ≠ (List.replicate 4294967296 0 : List Nat).length ∧
    u32FromBE ((Chunk.new ⟨[82, 117, 83, 116]⟩
        (List.replicate 4294967296 0)).as_bytes.take 4)
      = (List.replicate 4294967296 0 : List Nat).length % 4294967296 :=
  C10_length_overflow ⟨[82, 117, 83, 116]⟩ (List.replicate 4294967296 0)
    (by simp only [List.length_replicate, U32_MAX]; omega)

/-- A concrete well-formed chunk value with an empty payload. -/
def sampleChunk2 : Chunk := ⟨0, ⟨[65, 66, 67, 68]⟩, [], crc32 [65, 66, 67, 68]⟩

/-- The serialization of sampleChunk2. -/
def sampleBuffer : List Nat :=
  u32BE 0 ++ [65, 66, 67, 68] ++ u32BE (crc32 [65, 66, 67, 68])

/-- C1: parsing the serialization of Chunk::new, with arbitrary trailing
bytes appended, succeeds and returns a chunk equal to the constructed one,
for every valid 4-byte tag and every byte payload of 32-bit length. -/
theorem C1_roundtrip (t : ChunkType) (d extra : List Nat)
    (ht4 : t.data.length = 4)
    (htv : ∀ b ∈ t.data, is_valid_byte b = true)
    (hd : d.length ≤ U32_MAX)
    (hdb : ∀ b ∈ d, b < 256) :
    Chunk.tryFrom ((Chunk.new t d).as_bytes ++ extra) = .ok (Chunk.new t d) := by
  have hd32 : d.length < 4294967296 := by
    simp only [U32_MAX] at hd
    omega
  have hmod : d.length % 4294967296 = d.length := Nat.mod_eq_of_lt hd32
  have hcb : crc32 (t.data ++ d) < 4294967296 := by
    apply crc32_lt
    intro b hbm
    rcases List.mem_append.mp hbm with h | h
    · have := is_valid_byte_lt (htv b h)
      omega
    · have := hdb b h
      omega
  have he : (Chunk.new t d).as_bytes ++ extra
      = u32BE d.length ++ t.data ++ d ++ u32BE (crc32 (t.data ++ d)) ++ extra := by
    simp [Chunk.as_bytes, Chunk.new, ChunkType.bytes, hmod, List.append_assoc]
  rw [he, tryFrom_serialized t d extra (crc32 (t.data ++ d)) ht4 htv hd32 hcb]
  simp [Chunk.new, ChunkType.bytes, hmod]

/-- Witness for C1 at a concrete tag, payload, and trailing byte. -/
theorem C1_roundtrip_witness :
    Chunk.tryFrom ((Chunk.new ⟨[82, 117, 83, 116]⟩ [1, 2, 3]).as_bytes ++ [0])
      = .ok (Chunk.new ⟨[82, 117, 83, 116]⟩ [1, 2, 3]) :=
  C1_roundtrip ⟨[82, 117, 83, 116]⟩ [1, 2, 3] [0] rfl (by decide) (by decide)
    (by decide)

/-- C2: every chunk produced by Chunk::new (under the 32-bit length
precondition) or by a successful Chunk::try_from satisfies the two
invariants: crc equals the CRC-32 of tag bytes plus data, and length equals
the data length. -/
theorem C2_invariants :
    (∀ (t : ChunkType) (d : List Nat), d.length ≤ U32_MAX →
      (Chunk.new t d).crc
          = crc32 ((Chunk.new t d).chunk_type.bytes ++ (Chunk.new t d).chunk_data) ∧
      (Chunk.new t d).length = (Chunk.new t d).chunk_data.length) ∧
    (∀ (bs : List Nat) (c : Chunk), Chunk.tryFrom bs = .ok c →
      c.crc = crc32 (c.chunk_type.bytes ++ c.chunk_data) ∧
      c.length = c.chunk_data.length) := by
  constructor
  · intro t d hd
    refine ⟨rfl, ?_⟩
    simp only [Chunk.new, U32_MAX] at *
    omega
  · intro bs c h
    obtain ⟨hle, hlen, _, _, hdata, _, hcrc⟩ := tryFrom_ok_inversion h
    refine ⟨hcrc, ?_⟩
    rw [hlen, hdata]
    simp only [List.length_take, List.length_drop]
    omega

/-- Witness for C2 on both construction paths. -/
theorem C2_invariants_witness :
    ((Chunk.new ⟨[82, 117, 83, 116]⟩ [7, 8]).crc
        = crc32 ((Chunk.new ⟨[82, 117, 83, 116]⟩ [7, 8]).chunk_type.bytes
          ++ (Chunk.new ⟨[82, 117, 83, 116]⟩ [7, 8]).chunk_data) ∧
      (Chunk.new ⟨[82, 117, 83, 116]⟩ [7, 8]).length
        = (Chunk.new ⟨[82, 117, 83, 116]⟩ [7, 8]).chunk_data.length) ∧
    (sampleChunk2.crc
        = crc32 (sampleChunk2.chunk_type.bytes ++ sampleChunk2.chunk_data) ∧
      sampleChunk2.length = sampleChunk2.chunk_data.length) :=
  ⟨C2_invariants.1 ⟨[82, 117, 83, 116]⟩ [7, 8] (by decide),
   C2_invariants.2 sampleBuffer sampleChunk2 (by decide)⟩

/-- C3: an InvalidCrc failure happens exactly when the recomputed CRC-32
differs from the checksum field of the buffer (given that all reads and the
tag validation succeed); a successful parse stores the provided checksum;
and flipping any single bit of the checksum field of a valid serialized
chunk makes the parse fail with InvalidCrc. -/
theorem C3_checksum_semantics :
    (∀ bs : List Nat, Chunk.tryFrom bs = .error .InvalidCrc →
      12 + u32FromBE (bs.take 4) ≤ bs.length ∧
      u32FromBE ((bs.drop (8 + u32FromBE (bs.take 4))).take 4) ≠
        crc32 ((bs.drop 4).take 4 ++ (bs.drop 8).take (u32FromBE (bs.take 4)))) ∧
    (∀ bs : List Nat, (∀ b ∈ bs, b < 256) →
      12 + u32FromBE (bs.take 4) ≤ bs.length →
      (∀ b ∈ (bs.drop 4).take 4, is_valid_byte b = true) →
      u32FromBE ((bs.drop (8 + u32FromBE (bs.take 4))).take 4) ≠
        crc32 ((bs.drop 4).take 4 ++ (bs.drop 8).take (u32FromBE (bs.take 4))) →
      Chunk.tryFrom bs = .error .InvalidCrc) ∧
    (∀ (bs : List Nat) (c : Chunk), Chunk.tryFrom bs = .ok c →
      c.crc = u32FromBE ((bs.drop (8 + u32FromBE (bs.take 4))).take 4)) ∧
    (∀ (t : ChunkType) (d : List Nat) (k : Nat),
      t.data.length = 4 → (∀ b ∈ t.data, is_valid_byte b = true) →
      d.length ≤ U32_MAX → (∀ b ∈ d, b < 256) → k < 32 →
      Chunk.tryFrom (u32BE d.length ++ t.data ++ d
          ++ u32BE (crc32 (t.data ++ d) ^^^ 2 ^ k))
        = .error .InvalidCrc) := by
  refine ⟨?_, ?_, ?_, ?_⟩
  · intro bs h
    obtain ⟨hle, _, hne⟩ := tryFrom_invalidCrc_inversion h
    exact ⟨hle, hne⟩
  · intro bs hb hle hval hne
    rw [tryFrom_spec]
    have h4 : ¬ (bs.length < 4) := by omega
    have htk : (bs.take 4).length = 4 := by
      simp only [List.length_take]
      omega
    have hmax : ¬ (u32FromBE (bs.take 4) > U32_MAX) := by
      have := u32FromBE_lt (fun b hbm => hb b (List.take_subset 4 bs hbm)) htk
      simp only [U32_MAX]
      omega
    have h8 : ¬ (bs.length < 8) := by omega
    have hd8 : ¬ (bs.length < 8 + u32FromBE (bs.take 4)) := by omega
    have hd12 : ¬ (bs.length < 12 + u32FromBE (bs.take 4)) := by omega
    rw [chunkTypeTryFrom_of_valid hval]
    simp only [if_neg h4, if_neg hmax, if_neg h8, if_neg hd8, if_neg hd12,
      ChunkType.bytes]
    rw [if_pos hne]
  · intro bs c h
    exact (tryFrom_ok_inversion h).2.2.2.2.2.1
  · intro t d k ht4 htv hd hdb hk
    have hd32 : d.length < 4294967296 := by
      simp only [U32_MAX] at hd
      omega
    have hcb : crc32 (t.data ++ d) < 4294967296 := by
      apply crc32_lt
      intro b hbm
      rcases List.mem_append.mp hbm with h | h
      · have := is_valid_byte_lt (htv b h)
        omega
      · have := hdb b h
        omega
    have h2k : (2 : Nat) ^ k < 4294967296 := by
      calc (2 : Nat) ^ k < 2 ^ 32 := Nat.pow_lt_pow_right (by norm_num) hk
        _ = 4294967296 := by norm_num
    have hx : crc32 (t.data ++ d) ^^^ 2 ^ k < 4294967296 := by
      have h32 : (4294967296 : Nat) = 2 ^ 32 := by norm_num
      rw [h32]
      exact Nat.xor_lt_two_pow (by omega) (by omega)
    have happ : u32BE d.length ++ t.data ++ d ++ u32BE (crc32 (t.data ++ d) ^^^ 2 ^ k)
        = u32BE d.length ++ t.data ++ d ++ u32BE (crc32 (t.data ++ d) ^^^ 2 ^ k)
          ++ ([] : List Nat) := by
      simp
    rw [happ, tryFrom_serialized t d [] (crc32 (t.data ++ d) ^^^ 2 ^ k) ht4 htv hd32 hx,
      if_pos (xor_two_pow_ne (crc32 (t.data ++ d)) k)]

/-- Witness for C3: flipping bit 5 of the checksum field of a concrete
serialized chunk makes the parse fail with InvalidCrc. -/
theorem C3_checksum_semantics_witness :
    Chunk.tryFrom (u32BE 1 ++ [82, 117, 83, 116] ++ [7]
        ++ u32BE (crc32 ([82, 117, 83, 116] ++ [7]) ^^^ 2 ^ 5))
      = .error .InvalidCrc :=
  C3_checksum_semantics.2.2.2 ⟨[82, 117, 83, 116]⟩ [7] 5 rfl (by decide)
    (by decide) (by decide) (by decide)

/-- C7 counterexample: a buffer that declares payload length 5 but holds
only 8 bytes in total fails with InvalidChunkType (its type-tag bytes are
the digit 49), not with ReadError as the claim states for every truncated
buffer. -/
theorem C7_counterexample :
    ([0, 0, 0, 5, 49, 49, 49, 49] : List Nat).length
        < 12 + u32FromBE (([0, 0, 0, 5, 49, 49, 49, 49] : List Nat).take 4) ∧
    Chunk.tryFrom [0, 0, 0, 5, 49, 49, 49, 49]
        = .error (.InvalidChunkType (.BadByte 49)) ∧
    Chunk.tryFrom [0, 0, 0, 5, 49, 49, 49, 49] ≠ .error .ReadError := by
  refine ⟨by decide, by decide, by decide⟩

/-- C7 (amended): a buffer that declares a payload length but holds fewer
than 12 plus that length bytes never yields a Chunk; the failure is
ReadError at the first unsatisfiable read when the type-tag bytes, if fully
readable, are ASCII-alphabetic, and InvalidChunkType with the first invalid
tag byte when they are readable but not all alphabetic; and a successfully
parsed Chunk always carries a payload of exactly the declared length. -/
theorem C7_truncation_amended :
    (∀ bs : List Nat, bs.length < 12 + u32FromBE (bs.take 4) →
      ∀ c, Chunk.tryFrom bs ≠ .ok c) ∧
    (∀ bs : List Nat, (∀ b ∈ bs, b < 256) →
      bs.length < 12 + u32FromBE (bs.take 4) →
      (8 ≤ bs.length → ∀ b ∈ (bs.drop 4).take 4, is_valid_byte b = true) →
      Chunk.tryFrom bs = .error .ReadError) ∧
    (∀ (bs : List Nat) (b : Nat), (∀ b2 ∈ bs, b2 < 256) →
      8 ≤ bs.length →
      firstInvalidByte ((bs.drop 4).take 4) = some b →
      Chunk.tryFrom bs = .error (.InvalidChunkType (.BadByte b))) ∧
    (∀ (bs : List Nat) (c : Chunk), Chunk.tryFrom bs = .ok c →
      c.chunk_data.length = u32FromBE (bs.take 4)) := by
  refine ⟨?_, ?_, ?_, ?_⟩
  · intro bs htrunc c hok
    exact absurd (tryFrom_ok_inversion hok).1 (by omega)
  · intro bs hb htrunc htype
    rw [tryFrom_spec]
    by_cases h4 : bs.length < 4
    · simp [h4]
    · have htk : (bs.take 4).length = 4 := by
        simp only [List.length_take]
        omega
      have hmax : ¬ (u32FromBE (bs.take 4) > U32_MAX) := by
        have := u32FromBE_lt (fun b hbm => hb b (List.take_subset 4 bs hbm)) htk
        simp only [U32_MAX]
        omega
      simp only [if_neg h4, if_neg hmax]
      by_cases h8 : bs.length < 8
      · simp [h8]
      · simp only [if_neg h8]
        rw [chunkTypeTryFrom_of_valid (htype (by omega))]
        by_cases hd8 : bs.length < 8 + u32FromBE (bs.take 4)
        · simp [hd8]
        · simp [if_neg hd8, htrunc]
  · intro bs b hb h8 hfirst
    rw [tryFrom_spec]
    have h4 : ¬ (bs.length < 4) := by omega
    have htk : (bs.take 4).length = 4 := by
      simp only [List.length_take]
      omega
    have hmax : ¬ (u32FromBE (bs.take 4) > U32_MAX) := by
      have := u32FromBE_lt (fun b2 hbm => hb b2 (List.take_subset 4 bs hbm)) htk
      simp only [U32_MAX]
      omega
    have htype : ChunkType.tryFrom ((bs.drop 4).take 4) = .error (.BadByte b) := by
      unfold ChunkType.tryFrom
      rw [hfirst]
    rw [htype]
    simp [h4, hmax, h8]
  · intro bs c hok
    obtain ⟨hle, hlen, _, _, hdata, _, _⟩ := tryFrom_ok_inversion hok
    rw [hdata]
    simp only [List.length_take, List.length_drop]
    omega

/-- Witness for the amended C7: one concrete truncated buffer with a valid
tag fails with ReadError, and one with an invalid tag fails with
InvalidChunkType. -/
theorem C7_truncation_amended_witness :
    Chunk.tryFrom [0, 0, 0, 5, 82, 117, 83, 116] = .error .ReadError ∧
    Chunk.tryFrom [0, 0, 0, 5, 49, 49, 49, 49]
      = .error (.InvalidChunkType (.BadByte 49)) :=
  ⟨C7_truncation_amended.2.1 [0, 0, 0, 5, 82, 117, 83, 116] (by decide)
      (by decide) (fun _ => by decide),
   C7_truncation_amended.2.2.1 [0, 0, 0, 5, 49, 49, 49, 49] 49 (by decide)
      (by decide) (by decide)⟩

end PngSecret
